import Mathlib

/-!
Shallow embedding of the transactional-outbox user store and user service of
the `fitest` repository (Go, MongoDB-backed), together with theorems settling
the frozen claims about it.

Modelling conventions.

* `pkg/store/userstore/userstore.go` stores one document per user in a single
  MongoDB collection.  A document is modelled by `Userstore.Rec`, the
  collection by `Userstore.Store := List Userstore.Rec` (list order stands for
  the engine's document order; single-document conditional updates touch the
  first matching document).
* Machine integers (`int64`, `int32`) are modelled by `Int`; none of the
  operations modelled here perform wrapping arithmetic.  `math.MaxInt64`
  is the explicit constant `maxInt64 = 2^63 - 1`.
* UTC timestamps (`time.Time`) are modelled by `Int` instants; `utctime.Now()`
  is passed in as an explicit `now` argument.  The store helper `eventFor`
  calls `utctime.Now()` twice in immediate succession for `created_at` and
  `updated_at`; both calls are modelled by the same instant.
* `uuid.UUID` values are modelled by `Nat`; `uuid.UUID.String()` and
  `time.Time.Format(TimeFormat)` are modelled by `toString` (an injective
  rendering, which is all the claims depend on).
* MongoDB filter documents are translated into boolean predicates on `Rec`
  following MongoDB semantics: a dotted path that traverses a `null`
  (`Option.none`) value or an out-of-range array index does not match an
  equality or `$gte`/`$lt` comparison against a concrete value.
* The goroutine/channel plumbing of `Events` and the publisher is sequential
  in this model: one iteration of the `Events` loop body is the function
  `eventsIteration`, and `rand.Int63n(n)`, which returns a value in `[0, n)`,
  is modelled by an explicit argument `j` constrained to that interval.
* The mongo driver's cursor is modelled by its result documents together
  with the `Current` slot, which is unset until the first `Next` call:
  `Cursor.Decode` unmarshals `Current` and errors while it is unset, and
  `Cursor.Err` reports only iteration errors seen by `Next` (none here).
-/

namespace Userstore

/-- Head state of an outbox entry (`State` in userstore.go). -/
inductive EvState where
  | pending
  | processing
deriving DecidableEq

/-- Action of an outbox entry (`Action` in userstore.go). -/
inductive EvAction where
  | created
  | updated
  | deleted
deriving DecidableEq

/-- `userstore.User`: the persisted user payload. -/
structure User where
  id : Nat
  firstName : String
  lastName : String
  nickname : String
  passwordHash : String
  email : String
  country : String
  createdAt : Int
  updatedAt : Int
  version : Int
deriving DecidableEq

/-- `userstore.Event`: one outbox entry, stored inline in the document. -/
structure Event where
  id : Nat
  state : EvState
  action : EvAction
  version : Int
  createdAt : Int
  updatedAt : Int
  data : Option User
deriving DecidableEq

/-- `userstore.Record`: the stored document (`_id`, `data`, `events`). -/
structure Rec where
  id : Nat
  data : Option User
  events : List Event
deriving DecidableEq

instance : Inhabited Rec := ⟨⟨0, none, []⟩⟩

/-- The MongoDB collection, in engine document order. -/
abbrev Store := List Rec

/-- `math.MaxInt64`, the version sentinel used by `DeleteOne`. -/
def maxInt64 : Int := 2 ^ 63 - 1

/-- `eventFor(action, id, version, user)` from userstore.go: a fresh `Pending`
outbox entry; both `utctime.Now()` calls are modelled by `now`. -/
def eventFor (action : EvAction) (id : Nat) (version : Int) (user : Option User)
    (now : Int) : Event :=
  { id := id
    state := .pending
    action := action
    version := version
    createdAt := now
    updatedAt := now
    data := user }

/-- Engine primitive: `UpdateOne(filter, mutation)` applies `f` to the first
document matching `p` and reports the modified count. -/
def updateFirst (p : Rec → Bool) (f : Rec → Rec) : Store → Store × Nat
  | [] => ([], 0)
  | r :: rs =>
    if p r then (f r :: rs, 1)
    else (r :: (updateFirst p f rs).1, (updateFirst p f rs).2)

/-- Filter `{_id: id, "data.id": id}` used by `ReadOne` and `DeleteOne`: the
path `data.id` only matches when `data` is non-null. -/
def docFilter (id : Nat) (r : Rec) : Bool :=
  r.id == id &&
    match r.data with
    | some u => u.id == id
    | none => false

/-- `Store.Create`: insert a document whose payload is `user` and whose outbox
holds a single `Pending` `Created` entry snapshotting the record.  The
unique-index violation branch is not modelled (no claim depends on it). -/
def Create (s : Store) (user : User) (now : Int) : Store :=
  s ++ [{ id := user.id
          data := some user
          events := [eventFor .created user.id user.version (some user) now] }]

/-- `Store.ReadOne`: return the payload of the document matching
`{_id: id, "data.id": id}`; `none` models `ErrNotFound`. -/
def ReadOne (s : Store) (id : Nat) : Option User :=
  (s.find? (docFilter id)).bind (·.data)

/-- `Store.DeleteOne`: one conditional update that nulls the payload and
appends a `Deleted` `Pending` entry carrying the `math.MaxInt64` version
sentinel and a null payload.  The returned `Bool` is `true` iff the modified
count was 1 (otherwise the Go code returns `ErrNotFound`). -/
def DeleteOne (s : Store) (id : Nat) (now : Int) : Store × Bool :=
  let (s', n) := updateFirst (docFilter id)
    (fun r => { r with
                  data := none
                  events := r.events ++ [eventFor .deleted id maxInt64 none now] }) s
  (s', n == 1)

/-- Store error kinds (`ErrNotFound`, `ErrInvalidVersion` in userstore.go). -/
inductive StoreErr where
  | notFound
  | invalidVersion
deriving DecidableEq

deriving instance DecidableEq for Except

/-- The field assignments of `Store.UpdateOne` after the version check: first
name, last name, password hash, country, created-at and updated-at are copied
from the update argument, the version is incremented; id, email and nickname
are left as read. -/
def applyUpdate (update rec : User) : User :=
  { rec with
      firstName := update.firstName
      lastName := update.lastName
      passwordHash := update.passwordHash
      country := update.country
      createdAt := update.createdAt
      updatedAt := update.updatedAt
      version := rec.version + 1 }

/-- The conditional-write filter of `Store.UpdateOne`:
`{_id: id, "data.id": id, "data.version": version}`. -/
def updateGuard (id : Nat) (version : Int) (r : Rec) : Bool :=
  r.id == id &&
    match r.data with
    | some u => u.id == id && u.version == version
    | none => false

/-- `Store.UpdateOne`: read the current payload, check the optimistic version,
then in one conditional write replace the payload with the mutated copy and
append an `Updated` `Pending` outbox entry snapshotting it; a modified count
other than 1 is reported as `ErrInvalidVersion`. -/
def UpdateOne (s : Store) (update : User) (now : Int) :
    Except StoreErr User × Store :=
  match ReadOne s update.id with
  | none => (.error .notFound, s)
  | some rec =>
    if rec.version != update.version then (.error .invalidVersion, s)
    else
      let rec' := applyUpdate update rec
      let res := updateFirst (updateGuard update.id update.version)
        (fun r => { r with
                      data := some rec'
                      events := r.events ++
                        [eventFor .updated rec'.id rec'.version (some rec') now] }) s
      if res.2 != 1 then (.error .invalidVersion, res.1) else (.ok rec', res.1)

/-- Filter of `Store.ProcessEvent`:
`{_id: id, "events.0.state": Processing, "events.0.data.version": version}`.
Per MongoDB semantics the path `events.0.data.version` matches the concrete
number `version` only when the head entry exists and its `data` is non-null. -/
def processEventFilter (id : Nat) (version : Int) (r : Rec) : Bool :=
  r.id == id &&
    match r.events with
    | [] => false
    | e :: _ =>
      e.state == .processing &&
        match e.data with
        | some u => u.version == version
        | none => false

/-- `Store.ProcessEvent(id, version)`: `$pop {events: -1}` (drop the head
outbox entry) on the document matching `processEventFilter`.  The Go code
ignores the modified count, so a failed guard is a silent no-op. -/
def ProcessEvent (s : Store) (id : Nat) (version : Int) : Store :=
  (updateFirst (processEventFilter id version)
    (fun r => { r with events := r.events.tail }) s).1

end Userstore

section C1

open Userstore

/-- A tombstoned document whose head outbox entry is the `Deleted` entry
appended by `DeleteOne`, already claimed (`Processing`) by the pump. -/
def deletedHeadRec : Rec :=
  { id := 1
    data := none
    events := [{ id := 1
                 state := .processing
                 action := .deleted
                 version := maxInt64
                 createdAt := 0
                 updatedAt := 0
                 data := none }] }

/-- C1: refuted on the code as the spec states it.  The head outbox entry of
`deletedHeadRec` is `Processing` and its own version field equals the
`math.MaxInt64` sentinel, so per the claim `ProcessEvent (id := 1,
version := maxInt64)` must pop it; but the Go filter constrains
`events.0.data.version`, a path that cannot match because the `Deleted`
entry's payload is null, so the call is a no-op and the entry stays
forever. -/
theorem processEvent_deleted_head_never_popped :
    (deletedHeadRec.events.head?.map Event.state = some EvState.processing ∧
      deletedHeadRec.events.head?.map Event.version = some maxInt64) ∧
    ProcessEvent [deletedHeadRec] 1 maxInt64 = [deletedHeadRec] ∧
    ProcessEvent [deletedHeadRec] 1 maxInt64 ≠
      [{ deletedHeadRec with events := [] }] := by
  refine ⟨⟨rfl, rfl⟩, rfl, ?_⟩
  decide

end C1

namespace Userstore

/-- When the first `p`-match of a store satisfies the stronger filter `q`, the
single-document conditional update driven by `q` modifies exactly that
document, and it stays the first `p`-match afterwards. -/
theorem updateFirst_find {p q : Rec → Bool} {f : Rec → Rec}
    (himp : ∀ r, q r = true → p r = true) :
    ∀ {s : Store} {doc : Rec}, s.find? p = some doc → q doc = true →
      p (f doc) = true →
      (updateFirst q f s).2 = 1 ∧ (updateFirst q f s).1.find? p = some (f doc)
  | [], doc => by intro h; simp at h
  | r :: rs, doc => by
    intro hfind hq hpf
    by_cases hp : p r = true
    · rw [List.find?_cons_of_pos _ hp] at hfind
      cases hfind
      constructor
      · simp [updateFirst, hq]
      · simp [updateFirst, hq, List.find?_cons_of_pos _ hpf]
    · have hp' : p r = false := by simpa using hp
      have hqr : q r = false := by
        cases hqr : q r with
        | true => exact absurd (himp r hqr) (by simp [hp'])
        | false => rfl
      rw [List.find?_cons_of_neg _ (by simp [hp'])] at hfind
      have ih := updateFirst_find himp hfind hq hpf
      simp only [updateFirst, hqr, Bool.false_eq_true, if_false]
      exact ⟨ih.1, by rw [List.find?_cons_of_neg _ (by simp [hp']), ih.2]⟩

/-- The conditional-write filter of `UpdateOne` is stronger than the read
filter shared by `ReadOne` and `DeleteOne`. -/
theorem updateGuard_imp_docFilter (id : Nat) (version : Int) :
    ∀ r, updateGuard id version r = true → docFilter id r = true := by
  intro r h
  cases hd : r.data with
  | none => simp [updateGuard, hd] at h
  | some u =>
    simp [updateGuard, hd] at h
    simp [docFilter, hd, h.1, h.2.1]

end Userstore

section C3

open Userstore

/-- C3 (amended): a successful `Store.UpdateOne` carrying the correct current
version `n` leaves the stored record with version `n + 1`, with the updated-at
and also the created-at supplied by the update, and with email and nickname
unchanged from the previously stored record.  (The Go code copies
`update.CreatedAt` into the stored payload; created-at is unchanged only when
the caller passes the previously read value through, as the user service
does.) -/
theorem updateOne_version_and_frame (s : Store) (u : User) (now : Int)
    (rec' : User) (hok : (UpdateOne s u now).1 = Except.ok rec') :
    ∃ old, ReadOne s u.id = some old ∧ old.version = u.version ∧
      rec'.version = u.version + 1 ∧
      rec'.updatedAt = u.updatedAt ∧
      rec'.createdAt = u.createdAt ∧
      rec'.email = old.email ∧
      rec'.nickname = old.nickname ∧
      ReadOne (UpdateOne s u now).2 u.id = some rec' := by
  cases hf : s.find? (docFilter u.id) with
  | none =>
    have hr : ReadOne s u.id = none := by simp [ReadOne, hf]
    simp [UpdateOne, hr] at hok
  | some doc =>
    cases hdata : doc.data with
    | none =>
      have hr : ReadOne s u.id = none := by simp [ReadOne, hf, hdata]
      simp [UpdateOne, hr] at hok
    | some old =>
      have hr : ReadOne s u.id = some old := by simp [ReadOne, hf, hdata]
      have hfilter := List.find?_some hf
      have hids : doc.id = u.id ∧ old.id = u.id := by
        simp [docFilter, hdata] at hfilter
        exact hfilter
      by_cases hv : old.version = u.version
      · have hguard : updateGuard u.id u.version doc = true := by
          simp [updateGuard, hdata, hids.1, hids.2, hv]
        have hfd : docFilter u.id
            ({ doc with
                 data := some (applyUpdate u old)
                 events := doc.events ++
                   [eventFor .updated (applyUpdate u old).id
                     (applyUpdate u old).version (some (applyUpdate u old)) now] }) =
            true := by
          simp [docFilter, applyUpdate, hids.1, hids.2]
        have hstep := @updateFirst_find (docFilter u.id)
          (updateGuard u.id u.version)
          (fun r => { r with
                        data := some (applyUpdate u old)
                        events := r.events ++
                          [eventFor .updated (applyUpdate u old).id
                            (applyUpdate u old).version
                            (some (applyUpdate u old)) now] })
          (updateGuard_imp_docFilter u.id u.version) s doc hf hguard hfd
        have hcount := hstep.1
        have hnotne : ¬ old.version ≠ u.version := by simp [hv]
        refine ⟨old, hr, hv, ?_⟩
        have hok' : rec' = applyUpdate u old := by
          simp only [UpdateOne, hr, bne_iff_ne, hnotne, if_false, hcount] at hok
          simp at hok
          exact hok.symm
        have hread' :
            ReadOne (UpdateOne s u now).2 u.id = some (applyUpdate u old) := by
          have h1 : ¬(1 : Nat) ≠ 1 := by simp
          simp only [UpdateOne, hr, bne_iff_ne, hnotne, if_false, hcount, h1]
          unfold ReadOne
          rw [hstep.2]
          rfl
        subst hok'
        refine ⟨?_, rfl, rfl, rfl, rfl, hread'⟩
        simp [applyUpdate, hv]
      · have hne : (old.version != u.version) = true := by
          simp [bne_iff_ne, hv]
        simp [UpdateOne, hr, hne] at hok

/-- Previously stored payload used by the C3 theorems. -/
def c3old : User :=
  { id := 1, firstName := "Ann", lastName := "Ahl", nickname := "ann1"
    passwordHash := "h0", email := "ann@x", country := "DE"
    createdAt := 5, updatedAt := 6, version := 1 }

/-- Update input used by the C3 theorems: correct version 1, but a created-at
different from the stored one. -/
def c3update : User :=
  { id := 1, firstName := "Bea", lastName := "Ahl", nickname := "ignored"
    passwordHash := "h1", email := "ignored@x", country := "NL"
    createdAt := 99, updatedAt := 50, version := 1 }

/-- Store holding the single live document for the C3 theorems. -/
def c3store : Store :=
  [{ id := 1, data := some c3old, events := [] }]

/-- C3: counterexample to the claim as stated.  This `UpdateOne` succeeds with
the correct current version 1, yet the stored created-at afterwards is the 99
supplied by the update, not the previously stored 5: created-at is not
unchanged. -/
theorem updateOne_counterexample_createdAt_changes :
    (UpdateOne c3store c3update 100).1 = Except.ok (applyUpdate c3update c3old) ∧
    (ReadOne c3store 1).map User.createdAt = some 5 ∧
    (ReadOne (UpdateOne c3store c3update 100).2 1).map User.createdAt = some 99 := by
  decide

/-- C3 witness: the amended theorem applied to the concrete store. -/
theorem updateOne_version_and_frame_witness :
    ∃ old, ReadOne c3store c3update.id = some old ∧
      old.version = c3update.version ∧
      (applyUpdate c3update c3old).version = c3update.version + 1 ∧
      (applyUpdate c3update c3old).updatedAt = c3update.updatedAt ∧
      (applyUpdate c3update c3old).createdAt = c3update.createdAt ∧
      (applyUpdate c3update c3old).email = old.email ∧
      (applyUpdate c3update c3old).nickname = old.nickname ∧
      ReadOne (UpdateOne c3store c3update 100).2 c3update.id =
        some (applyUpdate c3update c3old) :=
  updateOne_version_and_frame c3store c3update 100 (applyUpdate c3update c3old)
    (by decide)

end C3

namespace Userstore

instance : Inhabited Event :=
  ⟨{ id := 0, state := .pending, action := .created, version := 0
     createdAt := 0, updatedAt := 0, data := none }⟩

/-- Filter of `readAndUpdateNextEvent`:
`$or` of `{"events.0.state": Pending}` and `{"events.0.state": Processing,
"events.0.updated_at": {$lt: now - retryTimeout}}`.  A document with an empty
outbox has no `events.0` path and matches neither branch. -/
def eventsFilter (now retry : Int) (r : Rec) : Bool :=
  match r.events with
  | [] => false
  | e :: _ =>
    e.state == .pending ||
      (e.state == .processing && e.updatedAt < now - retry)

/-- Second branch of the claim filter on its own: a `Processing` head whose
lease is older than `now - retry`. -/
def headStale (now retry : Int) (r : Rec) : Bool :=
  match r.events with
  | [] => false
  | e :: _ => e.state == .processing && e.updatedAt < now - retry

/-- Sort key `events.0.updated_at` of the claim query (every candidate has a
head, so the default for an empty outbox is never compared). -/
def headUpdatedAt (r : Rec) : Int :=
  match r.events with
  | [] => 0
  | e :: _ => e.updatedAt

/-- The `$set` mutation of the claim query: the head entry's state becomes
`Processing` and its updated-at is refreshed to `now`. -/
def claimHead (now : Int) (r : Rec) : Rec :=
  match r.events with
  | [] => r
  | e :: es => { r with events := { e with state := .processing, updatedAt := now } :: es }

/-- Index of the document claimed by the `FindOneAndUpdate`: among documents
matching `eventsFilter`, one with least `events.0.updated_at` (the engine's
choice among ties is modelled as the first in document order). -/
def claimIndex (s : Store) (now retry : Int) : Option Nat :=
  ((List.range s.length).filter
      (fun i => eventsFilter now retry (s.getD i default))).argmin
    (fun i => headUpdatedAt (s.getD i default))

/-- `readAndUpdateNextEvent`: `FindOneAndUpdate` with the claim filter, the
claim mutation, sort `{"events.0.updated_at": 1}` and return-prior semantics;
the head outbox entry of the prior document is returned.  `none` models
`mongo.ErrNoDocuments`. -/
def readAndUpdateNextEvent (s : Store) (now retry : Int) :
    Option (Event × Store) :=
  match claimIndex s now retry with
  | none => none
  | some i =>
    some ((s.getD i default).events.headI,
      s.set i (claimHead now (s.getD i default)))

/-- One pass of the `Events` loop body.  The claim query runs; on
`mongo.ErrNoDocuments` the Go loop `continue`s — no result is yielded and
`waitWithJitter` is skipped; otherwise the event is yielded and the loop
waits `minInterval + source.Int63n(maxInterval-minInterval)`, with the random
draw modelled by the argument `j`.  Result: (yielded event, wait duration
performed before the next iteration, store afterwards). -/
def eventsIteration (s : Store) (now retry minI maxI j : Int) :
    Option Event × Option Int × Store :=
  match readAndUpdateNextEvent s now retry with
  | none => (none, none, s)
  | some (e, s') => (some e, some (minI + j), s')

theorem getD_eq_getElem (s : Store) (i : Nat) (hi : i < s.length) :
    s.getD i default = s[i] := by
  simp [List.getD, List.getElem?_eq_getElem hi]

theorem getElemD_eq_getElem (s : Store) (i : Nat) (hi : i < s.length) :
    s[i]?.getD default = s[i] := by
  simp [List.getElem?_eq_getElem hi]

/-- A successful claim picks a candidate of least head updated-at. -/
theorem claimIndex_spec (s : Store) (now retry : Int) (i : Nat)
    (h : claimIndex s now retry = some i) :
    ∃ hi : i < s.length, eventsFilter now retry s[i] = true ∧
      ∀ j, (hj : j < s.length) → eventsFilter now retry s[j] = true →
        headUpdatedAt s[i] ≤ headUpdatedAt s[j] := by
  have hmem : i ∈ (List.range s.length).filter
      (fun i => eventsFilter now retry (s.getD i default)) :=
    List.argmin_mem h
  have hi : i < s.length := List.mem_range.mp (List.mem_filter.mp hmem).1
  have hcand : eventsFilter now retry (s.getD i default) = true :=
    (List.mem_filter.mp hmem).2
  refine ⟨hi, by rwa [getD_eq_getElem s i hi] at hcand, ?_⟩
  intro j hj hjcand
  have hjmem : j ∈ (List.range s.length).filter
      (fun i => eventsFilter now retry (s.getD i default)) := by
    refine List.mem_filter.mpr ⟨List.mem_range.mpr hj, ?_⟩
    simpa [getElemD_eq_getElem s j hj] using hjcand
  have := List.le_of_mem_argmin hjmem h
  rwa [getD_eq_getElem s i hi, getD_eq_getElem s j hj] at this

/-- The claim query comes back empty exactly when no document matches the
claim filter. -/
theorem claimIndex_none_iff (s : Store) (now retry : Int) :
    claimIndex s now retry = none ↔
      ∀ r ∈ s, eventsFilter now retry r = false := by
  rw [claimIndex, List.argmin_eq_none, List.filter_eq_nil_iff]
  constructor
  · intro h r hr
    obtain ⟨i, hi, rfl⟩ := List.mem_iff_getElem.mp hr
    have := h i (List.mem_range.mpr hi)
    simpa [getElemD_eq_getElem s i hi] using this
  · intro h i hi
    have hi' : i < s.length := List.mem_range.mp hi
    simp [getElemD_eq_getElem s i hi', h s[i] (List.getElem_mem hi')]

/-- A candidate whose head updated-at is strictly least is the one claimed. -/
theorem claimIndex_unique_min (s : Store) (now retry : Int) (i : Nat)
    (hi : i < s.length) (hcand : eventsFilter now retry s[i] = true)
    (hmin : ∀ j, (hj : j < s.length) → j ≠ i →
      eventsFilter now retry s[j] = true →
      headUpdatedAt s[i] < headUpdatedAt s[j]) :
    claimIndex s now retry = some i := by
  have himem : i ∈ (List.range s.length).filter
      (fun i => eventsFilter now retry (s.getD i default)) := by
    refine List.mem_filter.mpr ⟨List.mem_range.mpr hi, ?_⟩
    simpa [getElemD_eq_getElem s i hi] using hcand
  cases hm : claimIndex s now retry with
  | none =>
    exact absurd ((claimIndex_none_iff s now retry).mp hm s[i]
      (List.getElem_mem hi)) (by simp [hcand])
  | some m =>
    obtain ⟨hmlt, hmcand, hmmin⟩ := claimIndex_spec s now retry m hm
    by_cases hmi : m = i
    · exact hmi ▸ rfl
    · have h1 : headUpdatedAt s[i] < headUpdatedAt s[m] :=
        hmin m hmlt hmi hmcand
    -- minimality of the claimed index contradicts the strict bound
      have h2 : headUpdatedAt s[m] ≤ headUpdatedAt s[i] := hmmin i hi hcand
      omega

/-- A record passing the claim filter has a non-empty outbox. -/
theorem eventsFilter_events_ne_nil {now retry : Int} {r : Rec}
    (h : eventsFilter now retry r = true) : r.events ≠ [] := by
  cases hev : r.events with
  | nil => simp [eventsFilter, hev] at h
  | cons e es => simp [hev]

end Userstore

section C2

open Userstore

/-- C2: each step of the `Events` stream yields a claim exactly when some
document's head outbox entry is `Pending` or `Processing` with an expired
lease; the claimed document has least head updated-at among the candidates,
its pre-transition head entry is what is yielded, its head becomes
`Processing` with refreshed updated-at while every other document is
untouched; a head whose `Processing` lease is older than `now - retry` is a
candidate, and is itself re-claimed and re-surfaced by the step whenever it is
the strictly least-recently-updated candidate. -/
theorem events_step_claims_oldest (s : Store) (now retry : Int) :
    ((readAndUpdateNextEvent s now retry).isSome ↔
      ∃ r ∈ s, eventsFilter now retry r = true) ∧
    (∀ e s', readAndUpdateNextEvent s now retry = some (e, s') →
      ∃ i, ∃ hi : i < s.length,
        eventsFilter now retry s[i] = true ∧
        s[i].events.head? = some e ∧
        s' = s.set i (claimHead now s[i]) ∧
        (∀ j, (hj : j < s.length) → eventsFilter now retry s[j] = true →
          headUpdatedAt s[i] ≤ headUpdatedAt s[j])) ∧
    (∀ r : Rec, ∀ e : Event, r.events.head? = some e →
      (claimHead now r).events.head? =
        some { e with state := .processing, updatedAt := now }) ∧
    (∀ r ∈ s, headStale now retry r = true → eventsFilter now retry r = true) ∧
    (∀ i, (hi : i < s.length) → headStale now retry s[i] = true →
      (∀ j, (hj : j < s.length) → j ≠ i → eventsFilter now retry s[j] = true →
        headUpdatedAt s[i] < headUpdatedAt s[j]) →
      readAndUpdateNextEvent s now retry =
        some (s[i].events.headI, s.set i (claimHead now s[i]))) := by
  have hstale : ∀ r : Rec, headStale now retry r = true →
      eventsFilter now retry r = true := by
    intro r h
    cases hev : r.events with
    | nil => simp [headStale, hev] at h
    | cons e es =>
      simp [headStale, hev] at h
      simp [eventsFilter, hev, h.1, h.2]
  refine ⟨?_, ?_, ?_, fun r _ => hstale r, ?_⟩
  · cases hc : claimIndex s now retry with
    | none =>
      simp only [readAndUpdateNextEvent, hc]
      constructor
      · intro h; simp at h
      · rintro ⟨r, hr, hfil⟩
        have := (claimIndex_none_iff s now retry).mp hc r hr
        simp [this] at hfil
    | some i =>
      simp only [readAndUpdateNextEvent, hc]
      constructor
      · intro _
        obtain ⟨hi, hcand, _⟩ := claimIndex_spec s now retry i hc
        exact ⟨s[i], List.getElem_mem hi, hcand⟩
      · intro _; simp
  · intro e s' h
    cases hc : claimIndex s now retry with
    | none => simp [readAndUpdateNextEvent, hc] at h
    | some i =>
      simp only [readAndUpdateNextEvent, hc, Option.some.injEq,
        Prod.mk.injEq] at h
      obtain ⟨hi, hcand, hmin⟩ := claimIndex_spec s now retry i hc
      rw [getD_eq_getElem s i hi] at h
      refine ⟨i, hi, hcand, ?_, h.2.symm, hmin⟩
      cases hev : s[i].events with
      | nil => exact absurd hev (eventsFilter_events_ne_nil hcand)
      | cons a as =>
        have ha : e = a := by
          have h1 := h.1
          rw [hev] at h1
          exact h1.symm
        rw [ha]
        rfl
  · intro r e h
    cases hev : r.events with
    | nil => rw [hev] at h; simp at h
    | cons a as =>
      rw [hev] at h
      simp at h
      simp [claimHead, hev, h]
  · intro i hi hst hminstrict
    have hcand : eventsFilter now retry s[i] = true := hstale s[i] hst
    have hidx := claimIndex_unique_min s now retry i hi hcand hminstrict
    simp only [readAndUpdateNextEvent, hidx, getD_eq_getElem s i hi]

/-- Store fixture for the C2 witness: a single document whose head entry holds
an expired `Processing` lease (updated-at 10, observed at now 100 with retry
interval 20). -/
def c2rec : Rec :=
  { id := 7
    data := none
    events := [{ id := 7, state := .processing, action := .updated
                 version := 2, createdAt := 0, updatedAt := 10, data := none }] }

/-- C2 witness: the claim-step theorem applied to the expired lease of
`c2rec`, which is re-claimed and re-surfaced. -/
theorem events_step_claims_oldest_witness :
    readAndUpdateNextEvent [c2rec] 100 20 =
      some ([c2rec][0].events.headI, [c2rec].set 0 (claimHead 100 [c2rec][0])) :=
  (events_step_claims_oldest [c2rec] 100 20).2.2.2.2 0 (by decide) (by decide)
    (fun j hj hne _ => absurd (Nat.lt_one_iff.mp hj) hne)

end C2

section C9

open Userstore

/-- C9: counterexample.  An `Events` iteration that finds no claimable outbox
entry (here: an empty collection) hits the `continue` branch: it yields
nothing and performs no wait at all before its next iteration, contradicting
the claim that every iteration waits a duration in
`[minInterval, maxInterval)`. -/
theorem events_iteration_no_entry_skips_wait :
    eventsIteration [] 100 20 10 30 5 = (none, none, []) := by decide

/-- C9 (amended): an `Events` iteration that yields an event result waits
`minInterval + Int63n(maxInterval - minInterval)`, a duration in
`[minInterval, maxInterval)`, before the next iteration; an iteration that
found no claimable outbox entry retries immediately with no wait (the wait is
performed if and only if a result was yielded). -/
theorem events_iteration_wait_in_range (s : Store) (now retry minI maxI j : Int)
    (hj0 : 0 ≤ j) (hjlt : j < maxI - minI) :
    (∀ e w s', eventsIteration s now retry minI maxI j = (some e, some w, s') →
      minI ≤ w ∧ w < maxI) ∧
    ((eventsIteration s now retry minI maxI j).1.isSome ↔
      (eventsIteration s now retry minI maxI j).2.1.isSome) := by
  constructor
  · intro e w s' h
    cases hr : readAndUpdateNextEvent s now retry with
    | none => simp [eventsIteration, hr] at h
    | some es =>
      simp [eventsIteration, hr] at h
      have : minI + j = w := h.2.1
      omega
  · cases hr : readAndUpdateNextEvent s now retry with
    | none => simp [eventsIteration, hr]
    | some es => simp [eventsIteration, hr]

/-- Store fixture for the C9 witness: one document with a `Pending` head. -/
def c9rec : Rec :=
  { id := 3
    data := none
    events := [{ id := 3, state := .pending, action := .created
                 version := 1, createdAt := 0, updatedAt := 4, data := none }] }

/-- C9 witness: the amended theorem applied to a concrete iteration that
yields an event and therefore waits 10 + 5 = 15 ∈ [10, 30). -/
theorem events_iteration_wait_in_range_witness :
    (10 : Int) ≤ 15 ∧ (15 : Int) < 30 :=
  (events_iteration_wait_in_range [c9rec] 100 20 10 30 5 (by decide)
      (by decide)).1
    c9rec.events.headI 15 [claimHead 100 c9rec] (by decide)

end C9

namespace Userstore

/-- `userstore.Query` for `FindMany`. -/
structure Query where
  createdAfter : Int
  country : String
  length : Int
  page : Int
deriving DecidableEq

/-- `userstore.Page`, the result of `FindMany`. -/
structure Page where
  page : Int
  total : Int
  items : List User
deriving DecidableEq

/-- `filterFromQuery`: `{"data.created_at": {$gte: query.CreatedAfter}}`, plus
`{"data.country": {$eq: query.Country}}` when a country is given.  A
tombstoned document (null `data`) has no `data.created_at` path and never
matches. -/
def filterFromQuery (q : Query) (r : Rec) : Bool :=
  match r.data with
  | none => false
  | some u =>
    q.createdAfter ≤ u.createdAt &&
      (if q.country == "" then true else u.country == q.country)

/-- `skipFromQuery`: `int64(query.Length) * (query.Page - 1)`, clamped below
at 0. -/
def skipFromQuery (q : Query) : Int :=
  let skip := q.length * (q.page - 1)
  if skip < 0 then 0 else skip

/-- Sort key `data.created_at` of the `FindMany` query (only compared between
documents passing `filterFromQuery`, whose payloads are non-null). -/
def sortKey (r : Rec) : Int :=
  match r.data with
  | none => 0
  | some u => u.createdAt

/-- Document order under the ascending `data.created_at` sort. -/
def recLE (a b : Rec) : Prop := sortKey a ≤ sortKey b

instance : DecidableRel recLE := fun a b =>
  inferInstanceAs (Decidable (sortKey a ≤ sortKey b))

instance : IsTotal Rec recLE := ⟨fun a b => le_total (sortKey a) (sortKey b)⟩

instance : IsTrans Rec recLE := ⟨fun _ _ _ => le_trans⟩

/-- The result documents behind the cursor of `findItems`' engine read:
`Find(filter, sort "data.created_at" ascending, skip, limit)`; skip and limit
are modelled on the result list, with nonpositive values clamped to 0 (the
service never passes length 0 thanks to `DefaultLength`). -/
def findDocs (s : Store) (q : Query) : List Rec :=
  ((((s.filter (filterFromQuery q)).insertionSort recLE)).drop
      (skipFromQuery q).toNat).take q.length.toNat

/-- The engine read of `findTotal`: `CountDocuments(filter)`. -/
def countDocuments (s : Store) (q : Query) : Int :=
  ((s.filter (filterFromQuery q)).length : Int)

instance : Inhabited User :=
  ⟨{ id := 0, firstName := "", lastName := "", nickname := ""
     passwordHash := "", email := "", country := ""
     createdAt := 0, updatedAt := 0, version := 0 }⟩

/-- The decode loop of `findItems` as the source writes it:

    for { if Decode errors, break; append *rec.Data; if !Next, break }

over the cursor, modelled by the `Current` slot (first argument) plus the
not-yet-visited result documents (second argument).  `Decode` unmarshals
`Current` and errors while it is unset; `Next` moves the next result document
into `Current` and reports whether there was one.  On a fresh cursor the
first `Decode` runs before any `Next`, so the loop breaks at once with no
items; the `some` branches are unreachable from `findItems` (were one
reached with a null payload, the Go dereference `*rec.Data` would fault —
the model returns a default payload there). -/
def findLoop : Option Rec → List Rec → List User → List User
  | none, _, acc => acc
  | some rec, [], acc => acc ++ [rec.data.getD default]
  | some rec, d :: ds, acc => findLoop (some d) ds (acc ++ [rec.data.getD default])

/-- `findItems`: run the engine read and collect payloads with the decode
loop, starting from the fresh cursor whose `Current` is unset.  The first
`Decode` therefore errors, the loop breaks empty, and the closing
`err = cursor.Err()` replaces the decode error with the cursor's (nil)
iteration error: every call yields an empty item list and no error. -/
def findItems (s : Store) (q : Query) : List User :=
  findLoop none (findDocs s q) []

/-- `Store.FindMany`: total from `findTotal`, items from `findItems` (which
the decode-before-Next slip leaves empty), page echoed from the query. -/
def FindMany (s : Store) (q : Query) : Page :=
  { page := q.page
    total := countDocuments s q
    items := findItems s q }

theorem findLoop_none (docs : List Rec) (acc : List User) :
    findLoop none docs acc = acc := by
  cases docs <;> rfl

/-- The decode loop breaks on its first, premature `Decode`: `findItems`
collects nothing. -/
theorem findItems_eq_nil (s : Store) (q : Query) : findItems s q = [] :=
  findLoop_none (findDocs s q) []

end Userstore

section C7

open Userstore

/-- Spec-side predicate, from the claim's words: a live payload matches when
its created-at is at least created-after and, when a country is given, its
country equals the query's. -/
def liveMatch (q : Query) (u : User) : Bool :=
  q.createdAfter ≤ u.createdAt &&
    (if q.country == "" then true else u.country == q.country)

theorem filterFromQuery_some {q : Query} {u : User} {r : Rec}
    (hd : r.data = some u) : filterFromQuery q r = liveMatch q u := by
  simp [filterFromQuery, liveMatch, hd]

/-- Collecting the payloads of the filtered documents is filtering the live
payloads by the spec-side predicate. -/
theorem filter_filterMap_data (s : Store) (q : Query) :
    (s.filter (filterFromQuery q)).filterMap Rec.data =
      (s.filterMap Rec.data).filter (liveMatch q) := by
  induction s with
  | nil => rfl
  | cons r rs ih =>
    cases hd : r.data with
    | none =>
      simp [List.filter_cons, List.filterMap_cons, filterFromQuery, hd, ih]
    | some u =>
      have hb := filterFromQuery_some (q := q) hd
      cases hlm : liveMatch q u with
      | true => simp [List.filter_cons, List.filterMap_cons, hb, hlm, hd, ih]
      | false => simp [List.filter_cons, List.filterMap_cons, hb, hlm, hd, ih]

/-- Every filtered document has a non-null payload, so collecting payloads
preserves the count. -/
theorem length_filterMap_filter (s : Store) (q : Query) :
    ((s.filter (filterFromQuery q)).filterMap Rec.data).length =
      (s.filter (filterFromQuery q)).length := by
  induction s with
  | nil => rfl
  | cons r rs ih =>
    cases hd : r.data with
    | none => simp [List.filter_cons, filterFromQuery, hd, ih]
    | some u =>
      cases hf : filterFromQuery q r with
      | true => simp [List.filter_cons, hf, List.filterMap_cons, hd, ih]
      | false => simp [List.filter_cons, hf, ih]

/-- Fixture payload `n` for the C7 boundary example: created at instant `n`. -/
def c7user (n : Nat) : User :=
  { id := n, firstName := "", lastName := "", nickname := ""
    passwordHash := "", email := "", country := "DE"
    createdAt := (n : Int), updatedAt := (n : Int), version := 1 }

/-- Fixture store of 20 live records created at instants 1..20. -/
def c7store : Store :=
  (List.range 20).map
    (fun n => { id := n + 1, data := some (c7user (n + 1)), events := [] })

/-- Query page 2, length 10, matching all 20 fixture records. -/
def c7query : Query :=
  { createdAfter := 0, country := "", length := 10, page := 2 }

/-- C7: refuted on the code.  The decode loop of `findItems` calls
`cursor.Decode` before the first `cursor.Next`, so the decode of the still
unset `Current` errors, the loop breaks with no items collected, and the
closing `err = cursor.Err()` discards the decode error: `FindMany` returns an
empty item list with no error for every query, never the claimed
filtered/sorted/paged window.  Only the page echo and the total behave as
claimed — the total is the unpaginated count of live payloads matching the
query — so on the fixture of 20 matching live records with page 2 and
length 10 the program reports total 20 but returns no items where the claim
expects records 11 through 20. -/
theorem findMany_returns_no_items :
    (∀ s q, (FindMany s q).items = []) ∧
    (∀ s q, (FindMany s q).page = q.page ∧
      (FindMany s q).total =
        (((s.filterMap Rec.data).filter (liveMatch q)).length : Int)) ∧
    ((FindMany c7store c7query).total = 20 ∧
      (FindMany c7store c7query).page = 2 ∧
      (FindMany c7store c7query).items = []) := by
  refine ⟨fun s q => findItems_eq_nil s q, fun s q => ⟨rfl, ?_⟩,
    by decide, by decide, by decide⟩
  show countDocuments s q = _
  rw [countDocuments, ← length_filterMap_filter, filter_filterMap_data]

end C7

/-!
The user service (package `user`, current revision: the one defining
`Service.Find`, `Service.Delete`, `Monitor` and the count-guarded
`CheckEventSuccessRateAndReset`, as required by `cmd/users/main.go` and the
package's tests).  `validator`, the password hasher and `time.Parse` are
external collaborators and enter the model as explicit arguments.
-/

namespace UserSvc

/-- `user.SanitizedUser`: the public projection of a user.  It has no
password-hash field; Go field names are kept because the struct has no json
tags. -/
structure SanitizedUser where
  ID : String
  FirstName : String
  LastName : String
  Nickname : String
  Email : String
  Country : String
  CreatedAt : String
  UpdatedAt : String
  Version : Int
deriving DecidableEq

/-- `sanitizedUserFromUserstoreUser` on a non-nil argument; `uu.ID.String()`
and `Format(TimeFormat)` are modelled by `toString`. -/
def sanitizedUserFromUserstoreUser (uu : Userstore.User) : SanitizedUser :=
  { ID := toString uu.id
    FirstName := uu.firstName
    LastName := uu.lastName
    Nickname := uu.nickname
    Email := uu.email
    Country := uu.country
    CreatedAt := toString uu.createdAt
    UpdatedAt := toString uu.updatedAt
    Version := uu.version }

/-- `user.Event`, the published change message.  Every field carries a json
tag except `Data`. -/
structure UserEvent where
  id : String
  version : Int
  action : String
  createdAt : String
  sentAt : String
  data : Option SanitizedUser
deriving DecidableEq

/-- The `string(ue.Action)` conversion. -/
def actionString : Userstore.EvAction → String
  | .created => "Created"
  | .updated => "Updated"
  | .deleted => "Deleted"

/-- `eventFromUserstoreEvent`; `SentAt` is `utctime.Now()` at conversion
time, passed as `now`; the nil check inside `sanitizedUserFromUserstoreUser`
is the `Option.map`. -/
def eventFromUserstoreEvent (now : Int) (ue : Userstore.Event) : UserEvent :=
  { id := toString ue.id
    version := ue.version
    action := actionString ue.action
    createdAt := toString ue.createdAt
    sentAt := toString now
    data := ue.data.map sanitizedUserFromUserstoreUser }

/-- `user.Query` of the service's `Find`. -/
structure FindQuery where
  createdAfter : String
  country : String
  length : Int
  page : Int
deriving DecidableEq

/-- `user.Page` of the service's `Find`: a page of sanitized users. -/
structure FindPage where
  page : Int
  total : Int
  items : List SanitizedUser
deriving DecidableEq

/-- `Service.Find`: parse created-after (`time.Parse` is the external
`parseTime`; a failed parse falls back to the zero time, modelled 0), default
page 0 to `DefaultPage = 1` and length 0 to `DefaultLength = 25`, delegate to
`Store.FindMany`, and sanitize every returned payload. -/
def Find (parseTime : String → Option Int) (s : Userstore.Store)
    (q : FindQuery) : FindPage :=
  let ca := (parseTime q.createdAfter).getD 0
  let page := if q.page == 0 then 1 else q.page
  let len := if q.length == 0 then 25 else q.length
  let p := Userstore.FindMany s
    { createdAfter := ca, country := q.country, length := len, page := page }
  { page := p.page
    total := p.total
    items := p.items.map sanitizedUserFromUserstoreUser }

/-- `user.Update`, the update request. -/
structure UpdateReq where
  ID : String
  FirstName : String
  LastName : String
  Password : String
  ConfirmPassword : String
  Country : String
  Version : Int
deriving DecidableEq

/-- Outcome of `Service.Update`: the updated user, or one of `ErrInvalid`,
`ErrNotFound`, `ErrInvalidVersion`, or a wrapped internal error. -/
inductive UpdateOutcome where
  | ok (u : Userstore.User)
  | errInvalid
  | errNotFound
  | errInvalidVersion
  | errInternal
deriving DecidableEq

/-- Error component of the `store.ReadOne` result inside `Service.Update`:
`notFound` is `userstore.ErrNotFound`, `transport` any other error. -/
inductive ReadErr where
  | notFound
  | transport
deriving DecidableEq

/-- Result of the `store.UpdateOne` call inside `Service.Update`. -/
inductive StoreUpdateRes where
  | ok (u : Userstore.User)
  | notFound
  | invalidVersion
  | transport
deriving DecidableEq

/-- The zero value of `userstore.User`, which Go's `ReadOne` returns alongside
an error. -/
def zeroUser : Userstore.User :=
  { id := 0, firstName := "", lastName := "", nickname := ""
    passwordHash := "", email := "", country := ""
    createdAt := 0, updatedAt := 0, version := 0 }

/-- `Service.Update`.  `validateOk` is the verdict of `validate.Struct`,
`readRes` the pair returned by `store.ReadOne` (record plus error — the
record is `zeroUser` whenever the error is set), `hash` the password hasher
and `storeUpdate` the `store.UpdateOne` call.  The translation keeps the
control flow of the source exactly: when the read error is set but is not
`ErrNotFound`, the enclosing `if` returns nothing, so execution continues
with the zero-valued record into the version comparison. -/
def serviceUpdate (validateOk : Bool)
    (readRes : Userstore.User × Option ReadErr) (hash : String → String)
    (storeUpdate : Userstore.User → StoreUpdateRes) (now : Int)
    (update : UpdateReq) : UpdateOutcome :=
  if !validateOk then .errInvalid
  else
    let rec0 := readRes.1
    match readRes.2 with
    | some .notFound => .errNotFound
    | _ =>
      if update.Version != rec0.version then .errInvalidVersion
      else
        let rec1 :=
          if update.Password.length == 0 then rec0
          else { rec0 with passwordHash := hash update.Password }
        let rec2 := { rec1 with
                        firstName := update.FirstName
                        lastName := update.LastName
                        country := update.Country
                        updatedAt := now }
        match storeUpdate rec2 with
        | .ok u => .ok u
        | .notFound => .errNotFound
        | .invalidVersion => .errInvalidVersion
        | .transport => .errInternal

/-- Monitor state inside `Service`: `eventCount int64`, `successRate float64`
(exact-arithmetic model: the float is a rational, the count unbounded). -/
structure MonitorState where
  eventCount : Int
  successRate : ℚ
deriving DecidableEq

/-- `recordEventResult(ok)`: increment the count and move the running mean by
`(val - rate) / count`, `val = 1.0` iff ok. -/
def recordEventResult (ok : Bool) (s : MonitorState) : MonitorState :=
  let val : ℚ := if ok then 1 else 0
  let count := s.eventCount + 1
  { eventCount := count
    successRate := s.successRate + (val - s.successRate) / (count : ℚ) }

/-- `CheckEventSuccessRateAndReset`: with no recorded events return 100%;
otherwise capture the rate and zero both fields. -/
def CheckEventSuccessRateAndReset (s : MonitorState) : ℚ × MonitorState :=
  if s.eventCount == 0 then (1, s)
  else (s.successRate, { eventCount := 0, successRate := 0 })

/-- `CheckEventCount`: read the count, no state change. -/
def CheckEventCount (s : MonitorState) : Int × MonitorState :=
  (s.eventCount, s)

/-- A call against the monitor. -/
inductive MonitorOp where
  | record (ok : Bool)
  | checkReset
  | checkCount
deriving DecidableEq

/-- State reached after one monitor call. -/
def monitorStep (s : MonitorState) : MonitorOp → MonitorState
  | .record ok => recordEventResult ok s
  | .checkReset => (CheckEventSuccessRateAndReset s).2
  | .checkCount => (CheckEventCount s).2

/-- State reached from the zero-valued `Service` after a call sequence. -/
def monitorRun (ops : List MonitorOp) : MonitorState :=
  ops.foldl monitorStep { eventCount := 0, successRate := 0 }

end UserSvc

section C5

open UserSvc

/-- C5: `CheckEventSuccessRateAndReset` returns 1.0 whenever the recorded
event count is 0 (the early return leaves the state untouched); otherwise it
returns the current running success rate and zeroes both the count and the
rate. -/
theorem checkEventSuccessRateAndReset_count_guard (s : MonitorState) :
    (s.eventCount = 0 → CheckEventSuccessRateAndReset s = (1, s)) ∧
    (s.eventCount ≠ 0 →
      (CheckEventSuccessRateAndReset s).1 = s.successRate ∧
      (CheckEventSuccessRateAndReset s).2 =
        { eventCount := 0, successRate := 0 }) := by
  constructor
  · intro h
    simp [CheckEventSuccessRateAndReset, h]
  · intro h
    simp [CheckEventSuccessRateAndReset, h]

/-- C5 witness: the theorem applied at the zero state and at a state holding
two events at rate one half. -/
theorem checkEventSuccessRateAndReset_count_guard_witness :
    CheckEventSuccessRateAndReset { eventCount := 0, successRate := 0 } =
      (1, { eventCount := 0, successRate := 0 }) ∧
    (CheckEventSuccessRateAndReset
        { eventCount := 2, successRate := 1/2 }).1 = (1/2 : ℚ) ∧
    (CheckEventSuccessRateAndReset { eventCount := 2, successRate := 1/2 }).2 =
      { eventCount := 0, successRate := 0 } :=
  ⟨(checkEventSuccessRateAndReset_count_guard
      { eventCount := 0, successRate := 0 }).1 rfl,
    ((checkEventSuccessRateAndReset_count_guard
      { eventCount := 2, successRate := 1/2 }).2 (by decide)).1,
    ((checkEventSuccessRateAndReset_count_guard
      { eventCount := 2, successRate := 1/2 }).2 (by decide)).2⟩

end C5

section C10

open UserSvc

/-- The C10 invariant: nonnegative count, success rate in the unit
interval. -/
def MonitorInv (s : MonitorState) : Prop :=
  0 ≤ s.eventCount ∧ 0 ≤ s.successRate ∧ s.successRate ≤ 1

theorem monitorStep_preserves (s : MonitorState) (op : MonitorOp)
    (h : MonitorInv s) : MonitorInv (monitorStep s op) := by
  obtain ⟨hc, hr0, hr1⟩ := h
  cases op with
  | record ok =>
    have hcQ : (0 : ℚ) ≤ (s.eventCount : ℚ) := by exact_mod_cast hc
    have hc1 : (1 : ℚ) ≤ ((s.eventCount + 1 : Int) : ℚ) := by push_cast; linarith
    have hc0 : (0 : ℚ) < ((s.eventCount + 1 : Int) : ℚ) :=
      lt_of_lt_of_le one_pos hc1
    refine ⟨?_, ?_, ?_⟩
    · show (0 : ℤ) ≤ s.eventCount + 1
      omega
    · show (0 : ℚ) ≤ s.successRate +
        ((if ok then (1 : ℚ) else 0) - s.successRate) /
          ((s.eventCount + 1 : Int) : ℚ)
      cases ok with
      | true =>
        rw [if_pos rfl]
        have hnum : (0 : ℚ) ≤ 1 - s.successRate := by linarith
        have hdiv := div_nonneg hnum (le_of_lt hc0)
        linarith
      | false =>
        rw [if_neg Bool.false_ne_true]
        have hdiv : s.successRate / ((s.eventCount + 1 : Int) : ℚ) ≤
            s.successRate := div_le_self hr0 hc1
        have hneg : ((0 : ℚ) - s.successRate) / ((s.eventCount + 1 : Int) : ℚ) =
            -(s.successRate / ((s.eventCount + 1 : Int) : ℚ)) := by ring
        rw [hneg]
        linarith
    · show s.successRate +
        ((if ok then (1 : ℚ) else 0) - s.successRate) /
          ((s.eventCount + 1 : Int) : ℚ) ≤ 1
      cases ok with
      | true =>
        rw [if_pos rfl]
        have hnum : (0 : ℚ) ≤ 1 - s.successRate := by linarith
        have hdiv : (1 - s.successRate) / ((s.eventCount + 1 : Int) : ℚ) ≤
            1 - s.successRate := div_le_self hnum hc1
        linarith
      | false =>
        rw [if_neg Bool.false_ne_true]
        have hdiv : (0 : ℚ) ≤ s.successRate / ((s.eventCount + 1 : Int) : ℚ) :=
          div_nonneg hr0 (le_of_lt hc0)
        have hneg : ((0 : ℚ) - s.successRate) / ((s.eventCount + 1 : Int) : ℚ) =
            -(s.successRate / ((s.eventCount + 1 : Int) : ℚ)) := by ring
        rw [hneg]
        linarith
  | checkReset =>
    show MonitorInv (CheckEventSuccessRateAndReset s).2
    by_cases h0 : s.eventCount = 0
    · have heq : CheckEventSuccessRateAndReset s = (1, s) := by
        simp [CheckEventSuccessRateAndReset, h0]
      rw [heq]
      exact ⟨hc, hr0, hr1⟩
    · have heq : CheckEventSuccessRateAndReset s =
          (s.successRate, { eventCount := 0, successRate := 0 }) := by
        simp [CheckEventSuccessRateAndReset, h0]
      rw [heq]
      exact ⟨le_refl 0, le_refl 0, by norm_num⟩
  | checkCount =>
    exact ⟨hc, hr0, hr1⟩

/-- C10: from the zero state, any sequence of `recordEventResult`,
`CheckEventSuccessRateAndReset` and `CheckEventCount` calls leaves the
monitor with a nonnegative event count and a success rate inside the unit
interval: each recorded outcome moves the running mean by
`(val - rate) / count` with `val ∈ {0, 1}`, which cannot leave `[0, 1]`. -/
theorem monitor_state_invariant (ops : List MonitorOp) :
    0 ≤ (monitorRun ops).eventCount ∧
    0 ≤ (monitorRun ops).successRate ∧
    (monitorRun ops).successRate ≤ 1 := by
  have haux : ∀ (l : List MonitorOp) (s : MonitorState),
      MonitorInv s → MonitorInv (l.foldl monitorStep s) := by
    intro l
    induction l with
    | nil => intro s h; exact h
    | cons op t ih => intro s h; exact ih _ (monitorStep_preserves s op h)
  have h := haux ops { eventCount := 0, successRate := 0 }
    ⟨le_refl 0, le_refl 0, by norm_num⟩
  exact ⟨h.1, h.2.1, h.2.2⟩

end C10

section C6

open UserSvc

/-- Valid update request with the (nonzero) version 3, used to show C6's
failing input. -/
def c6update : UpdateReq :=
  { ID := "f47ac10b-58cc-4372-a567-0e02b2c3d479", FirstName := "Ann"
    LastName := "Ahl", Password := "", ConfirmPassword := ""
    Country := "DE", Version := 3 }

/-- C6: refuted on the code.  When the store read inside `Service.Update`
fails with an error other than NotFound, the Go code only returns inside the
`errors.Is(err, ErrNotFound)` branch and otherwise falls through, so the
version comparison runs against the zero-valued record: with version 3 the
call reports `InvalidVersion` (never the claimed wrapped Internal error), and
with version 0 it even proceeds into `store.UpdateOne` carrying the
zero-valued record. -/
theorem update_swallows_transport_read_error :
    serviceUpdate true (zeroUser, some .transport) id
        (fun _ => .transport) 100 c6update = UpdateOutcome.errInvalidVersion ∧
    serviceUpdate true (zeroUser, some .transport) id
        (fun _ => .transport) 100 c6update ≠ UpdateOutcome.errInternal ∧
    serviceUpdate true (zeroUser, some .transport) id
        (fun u => StoreUpdateRes.ok u) 100 { c6update with Version := 0 } =
      UpdateOutcome.ok { zeroUser with
                           firstName := "Ann", lastName := "Ahl"
                           country := "DE", updatedAt := 100 } := by
  refine ⟨by decide, by decide, by decide⟩

end C6

namespace UserSvc

/-- Replace a payload's password hash (used to state that sanitized outputs
do not depend on stored hashes). -/
def scrubUser (h : String) (u : Userstore.User) : Userstore.User :=
  { u with passwordHash := h }

/-- Replace every password hash reachable from a stored document: the live
payload and every outbox snapshot. -/
def scrubRec (h : String) (r : Userstore.Rec) : Userstore.Rec :=
  { r with
      data := r.data.map (scrubUser h)
      events := r.events.map
        (fun e => { e with data := e.data.map (scrubUser h) }) }

theorem filterFromQuery_scrub (q : Userstore.Query) (h : String)
    (r : Userstore.Rec) :
    Userstore.filterFromQuery q (scrubRec h r) =
      Userstore.filterFromQuery q r := by
  cases hd : r.data <;>
    simp [Userstore.filterFromQuery, scrubRec, scrubUser, hd]

theorem filter_scrub (s : Userstore.Store) (q : Userstore.Query) (h : String) :
    (s.map (scrubRec h)).filter (Userstore.filterFromQuery q) =
      (s.filter (Userstore.filterFromQuery q)).map (scrubRec h) := by
  rw [List.filter_map]
  congr 1
  apply List.filter_congr
  intro r _
  exact filterFromQuery_scrub q h r

theorem findMany_scrub_page (s : Userstore.Store) (q : Userstore.Query)
    (h : String) :
    (Userstore.FindMany (s.map (scrubRec h)) q).page =
      (Userstore.FindMany s q).page := rfl

theorem findMany_scrub_total (s : Userstore.Store) (q : Userstore.Query)
    (h : String) :
    (Userstore.FindMany (s.map (scrubRec h)) q).total =
      (Userstore.FindMany s q).total := by
  show Userstore.countDocuments (s.map (scrubRec h)) q =
    Userstore.countDocuments s q
  rw [Userstore.countDocuments, Userstore.countDocuments, filter_scrub,
    List.length_map]

theorem findMany_scrub_items (s : Userstore.Store) (q : Userstore.Query)
    (h : String) :
    (Userstore.FindMany (s.map (scrubRec h)) q).items =
      (Userstore.FindMany s q).items.map (scrubUser h) := by
  show Userstore.findItems (s.map (scrubRec h)) q =
    (Userstore.findItems s q).map (scrubUser h)
  rw [Userstore.findItems_eq_nil, Userstore.findItems_eq_nil]
  rfl

end UserSvc

section C4

open UserSvc

/-- Live user behind the C4 witness. -/
def c4user : Userstore.User :=
  { id := 5, firstName := "Max", lastName := "Mustermann"
    nickname := "maxmust", passwordHash := "bcrypt-secret"
    email := "maxmust@example.com", country := "DE"
    createdAt := 7, updatedAt := 8, version := 1 }

/-- Store holding the single live document for the C4 witness. -/
def c4store : Userstore.Store :=
  [{ id := 5, data := some c4user, events := [] }]

/-- Query returning the single fixture record. -/
def c4query : FindQuery :=
  { createdAfter := "", country := "", length := 1, page := 1 }

/-- C4: sanitized outputs carry no password hash.  The sanitized projection
is unchanged under any rewrite of the stored hash; `Find` over a store with
every reachable hash replaced returns the very same page, and each of its
items is the sanitized projection of some stored payload; a published event
is likewise unchanged when the snapshot's hash is rewritten, and its data
field is exactly the sanitized projection of the outbox snapshot (null for a
null snapshot). -/
theorem sanitized_outputs_carry_no_password_hash :
    (∀ uu : Userstore.User, ∀ h : String,
      sanitizedUserFromUserstoreUser (scrubUser h uu) =
        sanitizedUserFromUserstoreUser uu) ∧
    (∀ parse : String → Option Int, ∀ s : Userstore.Store, ∀ q : FindQuery,
      ∀ h : String, Find parse (s.map (scrubRec h)) q = Find parse s q) ∧
    (∀ parse : String → Option Int, ∀ s : Userstore.Store, ∀ q : FindQuery,
      ∀ su, su ∈ (Find parse s q).items →
        ∃ uu, su = sanitizedUserFromUserstoreUser uu) ∧
    (∀ now : Int, ∀ ue : Userstore.Event, ∀ h : String,
      eventFromUserstoreEvent now
          { ue with data := ue.data.map (scrubUser h) } =
        eventFromUserstoreEvent now ue) ∧
    (∀ now : Int, ∀ ue : Userstore.Event,
      (eventFromUserstoreEvent now ue).data =
        ue.data.map sanitizedUserFromUserstoreUser) := by
  have hsan : ∀ uu : Userstore.User, ∀ h : String,
      sanitizedUserFromUserstoreUser (scrubUser h uu) =
        sanitizedUserFromUserstoreUser uu := fun _ _ => rfl
  have hmaps : ∀ h : String, ∀ l : List Userstore.User,
      (l.map (scrubUser h)).map sanitizedUserFromUserstoreUser =
        l.map sanitizedUserFromUserstoreUser := by
    intro h l
    rw [List.map_map]
    apply List.map_congr_left
    intro u _
    exact hsan u h
  refine ⟨hsan, ?_, ?_, ?_, fun _ _ => rfl⟩
  · intro parse s q h
    simp only [Find]
    rw [findMany_scrub_items, hmaps, findMany_scrub_total]
    rfl
  · intro parse s q su hsu
    unfold Find at hsu
    simp only [List.mem_map] at hsu
    obtain ⟨uu, _, heq⟩ := hsu
    exact ⟨uu, heq.symm⟩
  · intro now ue h
    obtain ⟨i, st, a, v, ca, ua, d⟩ := ue
    cases d with
    | none => rfl
    | some u => simp [eventFromUserstoreEvent, hsan u h]

/-- C4 witness: the theorem's `Find` clause applied to the concrete store —
replacing every stored password hash leaves the returned page identical. -/
theorem sanitized_outputs_carry_no_password_hash_witness :
    Find (fun _ => none) (c4store.map (scrubRec "other-hash")) c4query =
      Find (fun _ => none) c4store c4query :=
  sanitized_outputs_carry_no_password_hash.2.1 (fun _ => none) c4store
    c4query "other-hash"

end C4

namespace UserSvc

/-- Minimal model of `encoding/json` values. -/
inductive Json where
  | null
  | str (s : String)
  | num (n : Int)
  | obj (fields : List (String × Json))

/-- Keys of a marshalled JSON object, in struct-field order. -/
def jsonKeys : Json → List String
  | .obj fields => fields.map Prod.fst
  | _ => []

/-- Value under a key of a marshalled JSON object. -/
def jsonLookup (j : Json) (k : String) : Option Json :=
  match j with
  | .obj fields => fields.lookup k
  | _ => none

/-- Null test on a JSON value. -/
def jsonIsNull : Json → Bool
  | .null => true
  | _ => false

/-- `encoding/json` on `user.SanitizedUser`: no field carries a json tag, so
every key is the Go field name. -/
def marshalSanitizedUser (su : SanitizedUser) : Json :=
  .obj [("ID", .str su.ID), ("FirstName", .str su.FirstName),
        ("LastName", .str su.LastName), ("Nickname", .str su.Nickname),
        ("Email", .str su.Email), ("Country", .str su.Country),
        ("CreatedAt", .str su.CreatedAt), ("UpdatedAt", .str su.UpdatedAt),
        ("Version", .num su.Version)]

/-- `encoding/json` on `user.Event`, the body handed to `bus.Send` by
`event.SendJSON`: the five tagged fields marshal under their tag names, while
`Data`, which has no json tag, marshals under the Go field name `Data`; a nil
pointer marshals as null. -/
def marshalEvent (e : UserEvent) : Json :=
  .obj [("id", .str e.id), ("version", .num e.version),
        ("action", .str e.action), ("created_at", .str e.createdAt),
        ("sent_at", .str e.sentAt),
        ("Data", match e.data with
                 | none => .null
                 | some su => marshalSanitizedUser su)]

end UserSvc

section C8

open UserSvc

/-- The outbox entry appended by `DeleteOne` for document 9 at instant 40. -/
def c8deleted : Userstore.Event :=
  Userstore.eventFor .deleted 9 Userstore.maxInt64 none 40

/-- Payload snapshot for the updated-event fixture. -/
def c8user : Userstore.User :=
  { id := 9, firstName := "Max", lastName := "Mustermann"
    nickname := "maxmust", passwordHash := "bcrypt-secret"
    email := "maxmust@example.com", country := "DE"
    createdAt := 7, updatedAt := 41, version := 2 }

/-- The outbox entry appended by `UpdateOne` for document 9 at instant 41. -/
def c8updated : Userstore.Event :=
  Userstore.eventFor .updated 9 2 (some c8user) 41

/-- C8: refuted on the code.  The published JSON body's keys are `id`,
`version`, `action`, `created_at`, `sent_at` and `Data` — not `data`: the
`Data` field of `user.Event` is the only one without a json tag, so
`encoding/json` uses the Go field name.  The value under `Data` behaves as
claimed: null for the `Deleted` entry (whose snapshot is nil) and the
sanitized snapshot for an `Updated` entry. -/
theorem event_json_uses_capital_data_key :
    jsonKeys (marshalEvent (eventFromUserstoreEvent 50 c8deleted)) =
      ["id", "version", "action", "created_at", "sent_at", "Data"] ∧
    "data" ∉ jsonKeys (marshalEvent (eventFromUserstoreEvent 50 c8deleted)) ∧
    (eventFromUserstoreEvent 50 c8deleted).action = "Deleted" ∧
    (jsonLookup (marshalEvent (eventFromUserstoreEvent 50 c8deleted))
        "Data").map jsonIsNull = some true ∧
    (eventFromUserstoreEvent 50 c8updated).action = "Updated" ∧
    (jsonLookup (marshalEvent (eventFromUserstoreEvent 50 c8updated))
        "Data").map jsonIsNull = some false := by
  refine ⟨by decide, by decide, by decide, ?_, by decide, ?_⟩
  · rfl
  · rfl

end C8
